import Mathlib

/-!
Verification of `DocReportGenerator` (src/doc.py): a shallow embedding of
the JSON normalization, document formatting, fetch and run pipeline, with
theorems settling the specification claims.
-/

namespace DocReport

/-- Decoded JSON values, as produced by `json` / `resp.json()` in the source.
Numbers are modelled as integers (the claims involve no float arithmetic). -/
inductive Json where
  | null
  | bool (b : Bool)
  | num (n : Int)
  | str (s : String)
  | arr (xs : List Json)
  | obj (fields : List (String × Json))

/-- `isinstance(x, dict)` on a decoded JSON value. -/
def Json.isObj : Json → Bool
  | .obj _ => true
  | _ => false

/-- `isinstance(x, list)` on a decoded JSON value. -/
def Json.isArr : Json → Bool
  | .arr _ => true
  | _ => false

/-- Python truthiness of a decoded JSON value (`None`, `False`, `0`, `""`,
`[]`, `{}` are falsy, everything else truthy). -/
def Json.truthy : Json → Bool
  | .null => false
  | .bool b => b
  | .num n => n != 0
  | .str s => !(s == "")
  | .arr xs => !xs.isEmpty
  | .obj fs => !fs.isEmpty

/-- Python `x or default` where `x` is the result of `dict.get(key)`
(absent key gives `None`, which is falsy). -/
def pyOr (x : Option Json) (d : Json) : Json :=
  match x with
  | some v => if v.truthy then v else d
  | none => d

/-- One normalized record appended by `_normalize` (src/doc.py lines 51-58).
`id`, `title` and `summary` carry whatever JSON value the source mapping
held (Python keeps them verbatim); `status` and `created_at` are always
strings by construction. -/
structure NormItem where
  index : Nat
  id : Json
  title : Json
  status : String
  created_at : String
  summary : Json

/-- The `meta` dict built by `_normalize` (always has these two keys). -/
structure Meta where
  source : String
  count : Nat

/-- The return value of `_normalize`: `{"meta": meta, "items": normalized_items}`. -/
structure NormalizedReport where
  meta : Meta
  items : List NormItem

/-- The record built for candidate `item` at 1-based enumeration position `i`
(src/doc.py lines 51-58): `item.get("id", f"item-{i}")`,
`item.get("title") or "(untitled)"`, fixed `"published"` status, empty
`created_at`, `item.get("body", "")`. -/
def normalizeOne (i : Nat) (fields : List (String × Json)) : NormItem :=
  { index := i
  , id := (fields.lookup "id").getD (.str ("item-" ++ toString i))
  , title := pyOr (fields.lookup "title") (.str "(untitled)")
  , status := "published"
  , created_at := ""
  , summary := (fields.lookup "body").getD (.str "") }

/-- The `for i, item in enumerate(items, start=1)` loop of `_normalize`
(src/doc.py lines 48-58): non-dict items are skipped with `continue`,
but still consume their enumeration index `i`. -/
def normalizeLoop : Nat → List Json → List NormItem
  | _, [] => []
  | i, item :: rest =>
    match item with
    | .obj fields => normalizeOne i fields :: normalizeLoop (i + 1) rest
    | _ => normalizeLoop (i + 1) rest

/-- The candidate `items` list chosen by the dispatch at the top of
`_normalize` (src/doc.py lines 38-46): a list is taken as is, a dict
becomes the singleton list of itself, anything else gives no candidates. -/
def candidates (data : Json) : List Json :=
  match data with
  | .arr xs => xs
  | .obj fs => [.obj fs]
  | _ => []

/-- `DocReportGenerator._normalize` (src/doc.py lines 35-59). -/
def normalize (apiUrl : String) (data : Json) : NormalizedReport :=
  match data with
  | .arr xs =>
    { meta := { source := apiUrl, count := xs.length }
    , items := normalizeLoop 1 xs }
  | .obj fs =>
    { meta := { source := apiUrl, count := 1 }
    , items := normalizeLoop 1 [.obj fs] }
  | _ =>
    { meta := { source := apiUrl, count := 0 }
    , items := normalizeLoop 1 [] }

example : (normalize "u" (Json.arr [Json.num 5])).meta.count = 1 := rfl
example : (normalize "u" (Json.arr [Json.num 5])).items.length = 0 := rfl
example :
    ((normalize "u" (Json.arr [Json.obj [], Json.num 5, Json.obj []])).items.map
      (fun r => r.index)) = [1, 3] := rfl

mutual

/-- Python `repr()` of a decoded JSON value, used by `str()` on containers. -/
def pyRepr : Json → String
  | .null => "None"
  | .bool true => "True"
  | .bool false => "False"
  | .num n => toString n
  | .str s => "\x27" ++ s ++ "\x27"
  | .arr xs => "[" ++ String.intercalate ", " (pyReprList xs) ++ "]"
  | .obj fs => "\x7b" ++ String.intercalate ", " (pyReprFields fs) ++ "\x7d"

/-- `repr` of each element of a list. -/
def pyReprList : List Json → List String
  | [] => []
  | x :: xs => pyRepr x :: pyReprList xs

/-- `repr` of each key-value entry of a dict. -/
def pyReprFields : List (String × Json) → List String
  | [] => []
  | (k, v) :: fs => ("\x27" ++ k ++ "\x27: " ++ pyRepr v) :: pyReprFields fs

end

/-- Python `str()` of a decoded JSON value (a string is itself, everything
else falls back to `repr`), as applied by `str(row["id"])` and f-strings
in `format_doc`. -/
def pyStr : Json → String
  | .str s => s
  | j => pyRepr j

/-- The `cell.text = value` assignment of python-docx: it requires an
actual string and raises `TypeError` otherwise (src/doc.py line 91 feeds it
`row["title"]` without `str()`). -/
def cellText : Json → Except String String
  | .str s => .ok s
  | _ => .error "TypeError: text must be a string"

/-- `row.get("summary", "").strip()` (src/doc.py line 99): strips
whitespace from a string, raises `AttributeError` on a non-string value. -/
def pyStrip : Json → Except String String
  | .str s => .ok s.trim
  | _ => .error "AttributeError: object has no attribute strip"

/-- An abstract block of the generated Word document: headings (with a
centered flag), paragraphs as lists of run texts, and tables as a header
row plus data rows. Fonts, margins and table styles are presentation-only
and not modelled. -/
inductive Block where
  | heading (level : Nat) (text : String) (centered : Bool)
  | paragraph (runs : List String)
  | table (header : List String) (rows : List (List String))

/-- Whether a block is a table. -/
def Block.isTable : Block → Bool
  | .table _ _ => true
  | _ => false

/-- One data row of the summary table (src/doc.py lines 88-93):
`[str(index), str(id), title, status, created_at]`, where the title cell
assignment needs a string. -/
def tableRow (r : NormItem) : Except String (List String) :=
  match cellText r.title with
  | .error e => .error e
  | .ok t => .ok [toString r.index, pyStr r.id, t, r.status, r.created_at]

/-- The `for row in items: table.add_row()` loop (src/doc.py lines 87-93). -/
def buildRows : List NormItem → Except String (List (List String))
  | [] => .ok []
  | r :: rest =>
    match tableRow r with
    | .error e => .error e
    | .ok row =>
      match buildRows rest with
      | .error e => .error e
      | .ok rows => .ok (row :: rows)

/-- The per-item detail section (src/doc.py lines 95-101): a level-2
heading `"{index}. {title}"`, a bold metadata line, and a body paragraph
that falls back to `"(no summary available)"` when the stripped summary is
empty. -/
def detailBlocks (r : NormItem) : Except String (List Block) :=
  match pyStrip r.summary with
  | .error e => .error e
  | .ok stripped =>
    .ok
      [ .heading 2 (toString r.index ++ ". " ++ pyStr r.title) false
      , .paragraph ["ID: " ++ pyStr r.id ++ " | Status: " ++ r.status ++
          " | Created: " ++ r.created_at ++ "\n"]
      , .paragraph [if stripped == "" then "(no summary available)" else stripped] ]

/-- The `for row in items:` detail loop (src/doc.py lines 95-101). -/
def buildDetails : List NormItem → Except String (List Block)
  | [] => .ok []
  | r :: rest =>
    match detailBlocks r with
    | .error e => .error e
    | .ok bs =>
      match buildDetails rest with
      | .error e => .error e
      | .ok rest2 => .ok (bs ++ rest2)

/-- The header texts of the summary table (src/doc.py line 84). -/
def tableHeaders : List String := ["#", "ID", "Title", "Status", "Created"]

/-- The optional `Fetched: ...` run (src/doc.py lines 77-78): present only
when `self.last_fetch_at` is set. -/
def fetchedRuns (lastFetchAt : Option String) : List String :=
  match lastFetchAt with
  | some t => ["Fetched: " ++ t ++ "\n"]
  | none => []

/-- The runs of the metadata paragraph (src/doc.py lines 73-78). -/
def metaRuns (generatedAt : String) (lastFetchAt : Option String)
    (m : Meta) : List String :=
  ["Source: " ++ m.source ++ "\n",
   "Items: " ++ toString m.count ++ "\n",
   "Generated: " ++ generatedAt ++ "\n"] ++ fetchedRuns lastFetchAt

/-- The blocks `format_doc` adds before any table: the centered title
heading and the metadata paragraph (src/doc.py lines 69-78). -/
def headBlocks (generatedAt : String) (lastFetchAt : Option String)
    (m : Meta) : List Block :=
  [Block.heading 0 "API Report Summary" true,
   Block.paragraph (metaRuns generatedAt lastFetchAt m)]

/-- `DocReportGenerator.format_doc` (src/doc.py lines 61-102), abstracted
to the sequence of blocks it adds. `generatedAt` stands for the
`datetime.now` timestamp and `lastFetchAt` for the optional
`self.last_fetch_at`; both are opaque strings here. -/
def formatDoc (_apiUrl generatedAt : String) (lastFetchAt : Option String)
    (normalized : NormalizedReport) : Except String (List Block) :=
  match
    (if normalized.items.isEmpty then Except.ok []
     else
       match buildRows normalized.items with
       | .error e => .error e
       | .ok rows => .ok [Block.table tableHeaders rows, Block.paragraph []]) with
  | .error e => .error e
  | .ok tableBlocks =>
    match buildDetails normalized.items with
    | .error e => .error e
    | .ok details =>
      .ok (headBlocks generatedAt lastFetchAt normalized.meta ++ tableBlocks ++ details)

example :
    formatDoc "u" "t" none (normalize "u" (Json.arr [])) =
      .ok [Block.heading 0 "API Report Summary" true,
           Block.paragraph ["Source: u\n", "Items: 0\n", "Generated: t\n"]] := rfl

/-- The body of an HTTP response, from the point of view of `resp.json()`:
either it decodes to a JSON value or the parser fails with a message. The
JSON parser itself lives in the standard library, not in this repository. -/
inductive Body where
  | valid (j : Json)
  | invalid (err : String)

/-- The outcome of `requests.get`: either a `RequestException` (connection
error, timeout, ...) with its message, or a response with a status code
and a body. -/
inductive FetchOutcome where
  | reqError (cause : String)
  | response (status : Nat) (body : Body)

/-- The message of the `requests.HTTPError` raised by
`resp.raise_for_status()` for a status code in [400, 600): requests
formats it as client or server error with the code. -/
def httpErrorMsg (status : Nat) : String :=
  if status < 500 then toString status ++ " Client Error"
  else toString status ++ " Server Error"

/-- `DocReportGenerator.fetch_data` (src/doc.py lines 21-33):
`raise_for_status` failures and `RequestException`s become
`RuntimeError("API request failed: ...")`; a body that fails JSON decoding
becomes `RuntimeError("Invalid JSON from API: ...")`, which is not a
`RequestException` and so passes through the outer handler unchanged. -/
def fetchData (o : FetchOutcome) : Except String Json :=
  match o with
  | .reqError cause => .error ("API request failed: " ++ cause)
  | .response status body =>
    if 400 ≤ status ∧ status < 600 then
      .error ("API request failed: " ++ httpErrorMsg status)
    else
      match body with
      | .valid j => .ok j
      | .invalid e => .error ("Invalid JSON from API: " ++ e)

/-- `DocReportGenerator.save` (src/doc.py lines 104-109), over an abstract
file system which is the list of paths written so far: `doc.save` either
succeeds, appending the output path, or fails with an exception message
that is re-raised as `RuntimeError("Failed to save DOCX: ...")`. The
`saveError` parameter abstracts the I/O outcome. -/
def save (outputPath : String) (saveError : Option String)
    (written : List String) : Except String (String × List String) :=
  match saveError with
  | none => .ok (outputPath, written ++ [outputPath])
  | some e => .error ("Failed to save DOCX: " ++ e)

/-- `DocReportGenerator.run` (src/doc.py lines 111-115): fetch, normalize,
format, save, in that order, each failure aborting the rest. The result
pairs the returned value (or the raised error) with the list of files
written during the run; no file is written except by a successful `save`. -/
def run (apiUrl generatedAt : String) (lastFetchAt : Option String)
    (outputPath : String) (saveError : Option String) (o : FetchOutcome) :
    Except String String × List String :=
  match fetchData o with
  | .error e => (.error e, [])
  | .ok data =>
    match formatDoc apiUrl generatedAt lastFetchAt (normalize apiUrl data) with
    | .error e => (.error e, [])
    | .ok _doc =>
      match save outputPath saveError [] with
      | .ok (path, written) => (.ok path, written)
      | .error e => (.error e, [])

/-! Helper lemmas about the normalization loop. -/

theorem normalizeLoop_cons_not_obj {x : Json} (i : Nat) (rest : List Json)
    (h : x.isObj = false) :
    normalizeLoop i (x :: rest) = normalizeLoop (i + 1) rest := by
  cases x <;> first | rfl | simp [Json.isObj] at h

theorem normalizeLoop_length (i : Nat) (xs : List Json) :
    (normalizeLoop i xs).length = xs.countP (fun j => j.isObj) := by
  induction xs generalizing i with
  | nil => rfl
  | cons x rest ih =>
    cases x <;> simp [normalizeLoop, List.countP_cons, Json.isObj, ih]

theorem mem_normalizeLoop {r : NormItem} {xs : List Json} {i : Nat}
    (h : r ∈ normalizeLoop i xs) :
    ∃ m, ∃ hm : m < xs.length, r.index = i + m ∧ (xs.get ⟨m, hm⟩).isObj = true := by
  induction xs generalizing i with
  | nil => simp [normalizeLoop] at h
  | cons x rest ih =>
    by_cases hx : x.isObj = true
    · obtain ⟨fs, rfl⟩ : ∃ fs, x = Json.obj fs := by
        cases x <;> simp [Json.isObj] at hx
        exact ⟨_, rfl⟩
      simp only [normalizeLoop, List.mem_cons] at h
      rcases h with h1 | h1
      · exact ⟨0, Nat.succ_pos _, by simp [h1, normalizeOne], rfl⟩
      · obtain ⟨m, hm, heq, hobj⟩ := ih h1
        exact ⟨m + 1, Nat.succ_lt_succ hm, by omega, hobj⟩
    · rw [normalizeLoop_cons_not_obj i rest (by simpa using hx)] at h
      obtain ⟨m, hm, heq, hobj⟩ := ih h
      exact ⟨m + 1, Nat.succ_lt_succ hm, by omega, hobj⟩

theorem normalizeLoop_chain (i : Nat) (xs : List Json) :
    List.Chain' (· < ·) ((normalizeLoop i xs).map (fun r => r.index)) := by
  induction xs generalizing i with
  | nil => simp [normalizeLoop]
  | cons x rest ih =>
    by_cases hx : x.isObj = true
    · obtain ⟨fs, rfl⟩ : ∃ fs, x = Json.obj fs := by
        cases x <;> simp [Json.isObj] at hx
        exact ⟨_, rfl⟩
      simp only [normalizeLoop, List.map_cons]
      rw [List.chain'_cons']
      refine ⟨?_, ih (i + 1)⟩
      intro b hb
      obtain ⟨r, hr, rfl⟩ := List.mem_map.mp (List.mem_of_mem_head? hb)
      obtain ⟨m, hm, heq, _⟩ := mem_normalizeLoop hr
      simp only [normalizeOne]
      omega
    · rw [normalizeLoop_cons_not_obj i rest (by simpa using hx)]
      exact ih (i + 1)

theorem normalizeLoop_map_index_all_obj (i : Nat) (xs : List Json) :
    (∀ x ∈ xs, x.isObj = true) →
    (normalizeLoop i xs).map (fun r => r.index) = List.range' i xs.length := by
  induction xs generalizing i with
  | nil => intro _; simp [normalizeLoop]
  | cons x rest ih =>
    intro h
    obtain ⟨fs, rfl⟩ : ∃ fs, x = Json.obj fs := by
      have hx := h x (List.mem_cons_self x rest)
      cases x <;> simp [Json.isObj] at hx
      exact ⟨_, rfl⟩
    have ih2 := ih (i + 1) (fun y hy => h y (List.mem_cons_of_mem _ hy))
    simp only [normalizeLoop, List.map_cons, List.length_cons, List.range'_succ, ih2]
    simp [normalizeOne]

theorem normalize_items_eq (url : String) (data : Json) :
    (normalize url data).items = normalizeLoop 1 (candidates data) := by
  cases data <;> rfl

theorem normalize_count_eq (url : String) (data : Json) :
    (normalize url data).meta.count = (candidates data).length := by
  cases data <;> rfl

/-! Helper lemmas about the document formatter. -/

theorem buildRows_length :
    ∀ {items : List NormItem} {rows : List (List String)},
      buildRows items = .ok rows → rows.length = items.length := by
  intro items
  induction items with
  | nil =>
    intro rows h
    simp only [buildRows] at h
    cases h
    rfl
  | cons r rest ih =>
    intro rows h
    simp only [buildRows] at h
    cases htr : tableRow r with
    | error e => rw [htr] at h; cases h
    | ok row =>
      rw [htr] at h
      cases hbr : buildRows rest with
      | error e => rw [hbr] at h; cases h
      | ok rows2 =>
        rw [hbr] at h
        cases h
        simp [ih hbr]

theorem detailBlocks_ok_eq {r : NormItem} {bs : List Block}
    (h : detailBlocks r = .ok bs) :
    ∃ s, r.summary = Json.str s ∧
      bs = [Block.heading 2 (toString r.index ++ ". " ++ pyStr r.title) false,
            Block.paragraph ["ID: " ++ pyStr r.id ++ " | Status: " ++ r.status ++
              " | Created: " ++ r.created_at ++ "\n"],
            Block.paragraph
              [if s.trim == "" then "(no summary available)" else s.trim]] := by
  cases hs : r.summary <;> simp only [detailBlocks, pyStrip, hs] at h
  case str s =>
    cases h
    exact ⟨s, rfl, rfl⟩
  all_goals cases h

theorem detailBlocks_not_table {r : NormItem} {bs : List Block}
    (h : detailBlocks r = .ok bs) : ∀ b ∈ bs, b.isTable = false := by
  obtain ⟨s, _, rfl⟩ := detailBlocks_ok_eq h
  intro b hb
  simp only [List.mem_cons, List.not_mem_nil, or_false] at hb
  rcases hb with rfl | rfl | rfl <;> rfl

theorem buildDetails_not_table :
    ∀ {items : List NormItem} {ds : List Block},
      buildDetails items = .ok ds → ∀ b ∈ ds, b.isTable = false := by
  intro items
  induction items with
  | nil =>
    intro ds h
    simp only [buildDetails] at h
    cases h
    simp
  | cons r rest ih =>
    intro ds h
    simp only [buildDetails] at h
    cases hdb : detailBlocks r with
    | error e => rw [hdb] at h; cases h
    | ok bs =>
      rw [hdb] at h
      cases hbd : buildDetails rest with
      | error e => rw [hbd] at h; cases h
      | ok ds2 =>
        rw [hbd] at h
        cases h
        intro b hb
        rcases List.mem_append.mp hb with h1 | h1
        · exact detailBlocks_not_table hdb b h1
        · exact ih hbd b h1

theorem formatDoc_ok_empty {u g : String} {lf : Option String}
    {nr : NormalizedReport} {blocks : List Block}
    (hitems : nr.items = []) (h : formatDoc u g lf nr = .ok blocks) :
    blocks = headBlocks g lf nr.meta := by
  simp only [formatDoc, hitems, List.isEmpty_nil, if_true, buildDetails] at h
  cases h
  simp

theorem formatDoc_ok_nonempty {u g : String} {lf : Option String}
    {nr : NormalizedReport} {blocks : List Block}
    (hitems : nr.items ≠ []) (h : formatDoc u g lf nr = .ok blocks) :
    ∃ rows ds, buildRows nr.items = .ok rows ∧ buildDetails nr.items = .ok ds ∧
      blocks = headBlocks g lf nr.meta ++
        [Block.table tableHeaders rows, Block.paragraph []] ++ ds := by
  have hne : nr.items.isEmpty = false := by
    cases hlist : nr.items with
    | nil => exact absurd hlist hitems
    | cons a l => rfl
  simp only [formatDoc, hne, if_false, Bool.false_eq_true] at h
  cases hbr : buildRows nr.items with
  | error e => rw [hbr] at h; cases h
  | ok rows =>
    rw [hbr] at h
    cases hbd : buildDetails nr.items with
    | error e => rw [hbd] at h; cases h
    | ok ds =>
      rw [hbd] at h
      cases h
      exact ⟨rows, ds, rfl, rfl, rfl⟩

theorem api_prefix_ne (c e : String) :
    ("API request failed: " ++ c) ≠ ("Invalid JSON from API: " ++ e) := by
  intro h
  have h2 := congrArg String.data h
  simp only [String.data_append, List.cons_append] at h2
  injection h2 with h5 _
  exact absurd h5 (by decide)

/-! Claim theorems. -/

/-- C1 counterexample: for the decoded array `[5]` the metadata `count` is 1
while the normalized items list is empty, so `count` does not equal the
length of the produced normalized items sequence. -/
theorem count_items_mismatch_cex :
    (normalize "u" (Json.arr [Json.num 5])).meta.count ≠
      (normalize "u" (Json.arr [Json.num 5])).items.length := by
  decide

/-- C1 (amended): `count` equals the length of the candidate items sequence
chosen by the dispatch; the normalized items list is at most that long, and
`count` equals its length exactly when every candidate is a mapping (any
non-mapping candidate makes the items list strictly shorter). -/
theorem count_eq_candidate_length (url : String) (data : Json) :
    (normalize url data).meta.count = (candidates data).length ∧
    (normalize url data).items.length ≤ (normalize url data).meta.count ∧
    ((normalize url data).meta.count = (normalize url data).items.length ↔
      ∀ x ∈ candidates data, x.isObj = true) := by
  refine ⟨normalize_count_eq url data, ?_, ?_⟩
  · rw [normalize_items_eq, normalize_count_eq, normalizeLoop_length]
    exact List.countP_le_length _
  · rw [normalize_items_eq, normalize_count_eq, normalizeLoop_length]
    exact ⟨fun h => List.countP_eq_length.mp h.symm,
           fun h => (List.countP_eq_length.mpr h).symm⟩

/-- C1 witness: at `[{}]` every candidate is a mapping and `count` equals
the normalized items length. -/
theorem count_eq_candidate_length_witness :
    (normalize "u" (Json.arr [Json.obj []])).meta.count =
      (normalize "u" (Json.arr [Json.obj []])).items.length :=
  (count_eq_candidate_length "u" (Json.arr [Json.obj []])).2.2.mpr (by decide)

/-- C2 counterexample: for the decoded array `[{}, 5, {}]` the normalized
items carry indices `[1, 3]`, not the contiguous 1-based sequence `[1, 2]`,
so skipped raw entries do leave gaps. -/
theorem index_gap_cex :
    ((normalize "u" (Json.arr [Json.obj [], Json.num 5, Json.obj []])).items.map
        (fun r => r.index)) ≠
      List.range' 1
        (normalize "u" (Json.arr [Json.obj [], Json.num 5, Json.obj []])).items.length := by
  decide

/-- C2 (amended): each normalized item's `index` is its 1-based position in
the candidate sequence; the indices are strictly increasing, and they form
the contiguous sequence `1, ..., n` when no raw entry is skipped (every
candidate a mapping). -/
theorem index_positions (url : String) (data : Json) :
    List.Chain' (· < ·) ((normalize url data).items.map (fun r => r.index)) ∧
    (∀ r ∈ (normalize url data).items, ∃ m, ∃ hm : m < (candidates data).length,
      r.index = 1 + m ∧ ((candidates data).get ⟨m, hm⟩).isObj = true) ∧
    ((∀ x ∈ candidates data, x.isObj = true) →
      (normalize url data).items.map (fun r => r.index) =
        List.range' 1 (candidates data).length) := by
  refine ⟨?_, ?_, ?_⟩
  · rw [normalize_items_eq]
    exact normalizeLoop_chain 1 (candidates data)
  · intro r hr
    rw [normalize_items_eq] at hr
    exact mem_normalizeLoop hr
  · intro h
    rw [normalize_items_eq]
    exact normalizeLoop_map_index_all_obj 1 (candidates data) h

/-- C2 witness: at `[{}, {}]` no entry is skipped and the indices are the
contiguous sequence `[1, 2]`. -/
theorem index_positions_witness :
    (normalize "u" (Json.arr [Json.obj [], Json.obj []])).items.map
        (fun r => r.index) =
      List.range' 1 (candidates (Json.arr [Json.obj [], Json.obj []])).length :=
  (index_positions "u" (Json.arr [Json.obj [], Json.obj []])).2.2 (by decide)

/-- C3: a non-mapping element at position `k` of a decoded array yields no
record (no normalized item has index `k + 1`), the metadata `count` still
equals the original array length, and the normalized items list is strictly
shorter than `count`. -/
theorem nonmapping_dropped (url : String) (xs : List Json) (k : Nat)
    (hk : k < xs.length) (hobj : (xs.get ⟨k, hk⟩).isObj = false) :
    (∀ r ∈ (normalize url (Json.arr xs)).items, r.index ≠ k + 1) ∧
    (normalize url (Json.arr xs)).meta.count = xs.length ∧
    (normalize url (Json.arr xs)).items.length <
      (normalize url (Json.arr xs)).meta.count := by
  refine ⟨?_, rfl, ?_⟩
  · intro r hr hidx
    have hitems : (normalize url (Json.arr xs)).items = normalizeLoop 1 xs := rfl
    rw [hitems] at hr
    obtain ⟨m, hm, heq, hOm⟩ := mem_normalizeLoop hr
    have hmk : m = k := by omega
    subst hmk
    have hOm2 : (xs.get ⟨m, hk⟩).isObj = true := hOm
    rw [hobj] at hOm2
    exact absurd hOm2 (by decide)
  · have h1 : (normalize url (Json.arr xs)).items.length =
        xs.countP (fun j => j.isObj) := normalizeLoop_length 1 xs
    rw [h1]
    show xs.countP (fun j => j.isObj) < xs.length
    refine Nat.lt_of_le_of_ne (List.countP_le_length _) ?_
    intro heq
    have hall := List.countP_eq_length.mp heq
    have hcontra : (xs.get ⟨k, hk⟩).isObj = true := hall _ (xs.get_mem k hk)
    rw [hobj] at hcontra
    exact absurd hcontra (by decide)

/-- C3 witness: the array `[5]` has a non-mapping element at position 0,
and indeed ends up with fewer records than `count`. -/
theorem nonmapping_dropped_witness :
    (normalize "u" (Json.arr [Json.num 5])).items.length <
      (normalize "u" (Json.arr [Json.num 5])).meta.count :=
  (nonmapping_dropped "u" [Json.num 5] 0 (by decide) (by decide)).2.2

/-- C4: `_normalize` dispatches on the shape of the decoded value: `source`
is always the endpoint URL; an array makes every element a candidate and
sets `count` to the array length; a non-array object is the single
candidate with `count` 1; anything else yields no candidates and `count`
0. -/
theorem normalize_dispatch (url : String) (d : Json) :
    (normalize url d).meta.source = url ∧
    (normalize url d).items = normalizeLoop 1 (candidates d) ∧
    (∀ xs, d = Json.arr xs →
      (normalize url d).meta.count = xs.length ∧ candidates d = xs) ∧
    (∀ fs, d = Json.obj fs →
      (normalize url d).meta.count = 1 ∧ candidates d = [d]) ∧
    (d.isArr = false → d.isObj = false →
      (normalize url d).meta.count = 0 ∧ candidates d = []) := by
  refine ⟨?_, normalize_items_eq url d, ?_, ?_, ?_⟩ <;>
    cases d <;> simp [normalize, candidates, Json.isArr, Json.isObj]

/-- C4 witness: a single mapping is its own single candidate with `count`
1. -/
theorem normalize_dispatch_witness :
    (normalize "u" (Json.obj [])).meta.count = 1 ∧
      candidates (Json.obj []) = [Json.obj []] :=
  (normalize_dispatch "u" (Json.obj [])).2.2.2.1 [] rfl

/-- C6: `_normalize` is total - for every decoded value it returns the
report determined by the candidate dispatch, and any value that is neither
an array nor an object degrades to zero items with default metadata
(`count` 0, `source` the endpoint) instead of failing. -/
theorem normalize_total_degrades (url : String) (data : Json) :
    normalize url data =
      { meta := { source := url, count := (candidates data).length }
      , items := normalizeLoop 1 (candidates data) } ∧
    (data.isArr = false → data.isObj = false →
      normalize url data = { meta := { source := url, count := 0 }, items := [] }) := by
  constructor
  · cases data <;> rfl
  · intro h1 h2
    cases data with
    | arr xs => exact absurd h1 (by simp [Json.isArr])
    | obj fs => exact absurd h2 (by simp [Json.isObj])
    | null => rfl
    | bool b => rfl
    | num n => rfl
    | str s => rfl

/-- C6 witness: the scalar `null` degrades to zero items and `count` 0. -/
theorem normalize_total_degrades_witness :
    normalize "u" Json.null =
      { meta := { source := "u", count := 0 }, items := [] } :=
  (normalize_total_degrades "u" Json.null).2 rfl rfl

/-- C10: the `id` fallback fires only when the `id` key is absent - a
present `id`, even null, empty or numeric, is kept verbatim - while the
`title` fallback fires whenever the `title` value is absent or falsy
(null, empty string and 0 are all falsy; a truthy title is kept). -/
theorem id_title_fallback_asymmetry :
    (∀ (i : Nat) (fs : List (String × Json)) v, fs.lookup "id" = some v →
      (normalizeOne i fs).id = v) ∧
    (∀ (i : Nat) (fs : List (String × Json)), fs.lookup "id" = none →
      (normalizeOne i fs).id = Json.str ("item-" ++ toString i)) ∧
    (∀ (i : Nat) (fs : List (String × Json)) v, fs.lookup "title" = some v →
      v.truthy = false → (normalizeOne i fs).title = Json.str "(untitled)") ∧
    (∀ (i : Nat) (fs : List (String × Json)) v, fs.lookup "title" = some v →
      v.truthy = true → (normalizeOne i fs).title = v) ∧
    (∀ (i : Nat) (fs : List (String × Json)), fs.lookup "title" = none →
      (normalizeOne i fs).title = Json.str "(untitled)") ∧
    (Json.null.truthy = false ∧ (Json.str "").truthy = false ∧
      (Json.num 0).truthy = false ∧ (Json.num 7).truthy = true) := by
  refine ⟨?_, ?_, ?_, ?_, ?_, by decide⟩
  · intro i fs v h
    simp [normalizeOne, h]
  · intro i fs h
    simp [normalizeOne, h]
  · intro i fs v h ht
    simp [normalizeOne, pyOr, h, ht]
  · intro i fs v h ht
    simp [normalizeOne, pyOr, h, ht]
  · intro i fs h
    simp [normalizeOne, pyOr, h]

/-- C10 witness: a present null `id` is kept verbatim rather than replaced
by the positional fallback. -/
theorem id_title_fallback_asymmetry_witness :
    (normalizeOne 3 [("id", Json.null)]).id = Json.null :=
  id_title_fallback_asymmetry.1 3 [("id", Json.null)] Json.null rfl

/-- C5: the record for a mapping candidate at 1-based position `i` has `id`
equal to the mapping value when the `id` key is present and `"item-{i}"`
otherwise; `title` equal to a present non-empty string title and
`"(untitled)"` when the title is absent or empty; the fixed status
`"published"`; an empty `created_at`; `summary` equal to a present `body`
value and `""` otherwise - and a record whose summary trims to the empty
string is rendered with the detail body text `"(no summary available)"`. -/
theorem record_field_fallbacks (i : Nat) (fs : List (String × Json)) :
    (∀ v, fs.lookup "id" = some v → (normalizeOne i fs).id = v) ∧
    (fs.lookup "id" = none →
      (normalizeOne i fs).id = Json.str ("item-" ++ toString i)) ∧
    (∀ s, fs.lookup "title" = some (Json.str s) → s ≠ "" →
      (normalizeOne i fs).title = Json.str s) ∧
    ((fs.lookup "title" = none ∨ fs.lookup "title" = some (Json.str "")) →
      (normalizeOne i fs).title = Json.str "(untitled)") ∧
    (normalizeOne i fs).status = "published" ∧
    (normalizeOne i fs).created_at = "" ∧
    (∀ v, fs.lookup "body" = some v → (normalizeOne i fs).summary = v) ∧
    (fs.lookup "body" = none → (normalizeOne i fs).summary = Json.str "") ∧
    (∀ s, (normalizeOne i fs).summary = Json.str s → s.trim = "" →
      ∃ bs, detailBlocks (normalizeOne i fs) = .ok bs ∧
        Block.paragraph ["(no summary available)"] ∈ bs) := by
  refine ⟨?_, ?_, ?_, ?_, rfl, rfl, ?_, ?_, ?_⟩
  · intro v h
    simp [normalizeOne, h]
  · intro h
    simp [normalizeOne, h]
  · intro s h hs
    simp [normalizeOne, pyOr, h, Json.truthy, hs]
  · intro h
    rcases h with h | h <;> simp [normalizeOne, pyOr, h, Json.truthy]
  · intro v h
    simp [normalizeOne, h]
  · intro h
    simp [normalizeOne, h]
  · intro s hsum htrim
    have hd : detailBlocks (normalizeOne i fs) = .ok
        [Block.heading 2 (toString (normalizeOne i fs).index ++ ". " ++
           pyStr (normalizeOne i fs).title) false,
         Block.paragraph ["ID: " ++ pyStr (normalizeOne i fs).id ++ " | Status: " ++
           (normalizeOne i fs).status ++ " | Created: " ++
           (normalizeOne i fs).created_at ++ "\n"],
         Block.paragraph
           [if s.trim == "" then "(no summary available)" else s.trim]] := by
      simp only [detailBlocks, hsum, pyStrip]
    refine ⟨_, hd, ?_⟩
    have hcond : (s.trim == "") = true := by simp [htrim]
    simp [hcond]

/-- C5 witness: with no `id` key the record receives the positional
fallback id. -/
theorem record_field_fallbacks_witness :
    (normalizeOne 1 ([] : List (String × Json))).id =
      Json.str ("item-" ++ toString 1) :=
  (record_field_fallbacks 1 []).2.1 rfl

/-- C7: whenever `format_doc` succeeds, the rendered blocks contain the
summary table with header `#, ID, Title, Status, Created` and one data row
per item exactly when the normalized items list is non-empty; for an empty
items list the table is omitted while the centered title heading and the
metadata paragraph (with the `Items:` count run) are still present, and for
the raw payload `[]` that run reads `Items: 0`. -/
theorem summary_table_iff_items (url gen : String) (lf : Option String)
    (data : Json) (blocks : List Block)
    (h : formatDoc url gen lf (normalize url data) = .ok blocks) :
    ((normalize url data).items = [] →
      blocks.filter Block.isTable = [] ∧
      Block.heading 0 "API Report Summary" true ∈ blocks ∧
      ∃ runs, Block.paragraph runs ∈ blocks ∧
        ("Items: " ++ toString (normalize url data).meta.count ++ "\n") ∈ runs) ∧
    ((normalize url data).items ≠ [] →
      ∃ rows, blocks.filter Block.isTable = [Block.table tableHeaders rows] ∧
        rows.length = (normalize url data).items.length ∧
        Block.heading 0 "API Report Summary" true ∈ blocks ∧
        ∃ runs, Block.paragraph runs ∈ blocks ∧
          ("Items: " ++ toString (normalize url data).meta.count ++ "\n") ∈ runs) ∧
    (data = Json.arr [] →
      blocks.filter Block.isTable = [] ∧
      ∃ runs, Block.paragraph runs ∈ blocks ∧ "Items: 0\n" ∈ runs) := by
  have part1 : (normalize url data).items = [] →
      blocks.filter Block.isTable = [] ∧
      Block.heading 0 "API Report Summary" true ∈ blocks ∧
      ∃ runs, Block.paragraph runs ∈ blocks ∧
        ("Items: " ++ toString (normalize url data).meta.count ++ "\n") ∈ runs := by
    intro hitems
    have hb := formatDoc_ok_empty hitems h
    subst hb
    refine ⟨rfl, by simp [headBlocks], ?_⟩
    exact ⟨metaRuns gen lf (normalize url data).meta,
      by simp [headBlocks], by simp [metaRuns]⟩
  refine ⟨part1, ?_, ?_⟩
  · intro hitems
    obtain ⟨rows, ds, hbr, hbd, hb⟩ := formatDoc_ok_nonempty hitems h
    subst hb
    have hds : ds.filter Block.isTable = [] :=
      List.filter_eq_nil_iff.mpr
        (fun b hb2 => by simp [buildDetails_not_table hbd b hb2])
    refine ⟨rows, ?_, buildRows_length hbr, by simp [headBlocks], ?_⟩
    · simp [List.filter_append, hds, headBlocks, Block.isTable]
    · exact ⟨metaRuns gen lf (normalize url data).meta,
        by simp [headBlocks], by simp [metaRuns]⟩
  · intro hdata
    subst hdata
    obtain ⟨hfilter, _, runs, hmem, hitem⟩ := part1 rfl
    have hcount : (normalize url (Json.arr [])).meta.count = 0 := rfl
    have hzero : ("Items: " ++ toString (normalize url (Json.arr [])).meta.count ++
        "\n") = "Items: 0\n" := by rw [hcount]; decide
    exact ⟨hfilter, runs, hmem, hzero ▸ hitem⟩

/-- C7 witness: for the raw payload `[]` the document is just the heading
and the metadata paragraph, with no table. -/
theorem summary_table_iff_items_witness :
    (List.filter Block.isTable
        [Block.heading 0 "API Report Summary" true,
         Block.paragraph ["Source: u\n", "Items: 0\n", "Generated: t\n"]] = []) ∧
    Block.heading 0 "API Report Summary" true ∈
      [Block.heading 0 "API Report Summary" true,
       Block.paragraph ["Source: u\n", "Items: 0\n", "Generated: t\n"]] :=
  ⟨((summary_table_iff_items "u" "t" none (Json.arr []) _ rfl).1 rfl).1,
   ((summary_table_iff_items "u" "t" none (Json.arr []) _ rfl).1 rfl).2.1⟩

/-- C8: a connection failure or non-success HTTP status surfaces as the
transport error `API request failed: ...` carrying the cause, an undecodable
body on a success status surfaces as the distinct decode error
`Invalid JSON from API: ...` carrying the parse error, and no transport
error message ever coincides with a decode error message. -/
theorem fetch_error_kinds :
    (∀ c, fetchData (.reqError c) = .error ("API request failed: " ++ c)) ∧
    (∀ s b, 400 ≤ s → s < 600 →
      fetchData (.response s b) =
        .error ("API request failed: " ++ httpErrorMsg s)) ∧
    (∀ s e, ¬(400 ≤ s ∧ s < 600) →
      fetchData (.response s (.invalid e)) =
        .error ("Invalid JSON from API: " ++ e)) ∧
    (∀ s j, ¬(400 ≤ s ∧ s < 600) →
      fetchData (.response s (.valid j)) = .ok j) ∧
    (∀ c e, ("API request failed: " ++ c) ≠ ("Invalid JSON from API: " ++ e)) := by
  refine ⟨fun c => rfl, ?_, ?_, ?_, api_prefix_ne⟩
  · intro s b h1 h2
    simp only [fetchData]
    rw [if_pos ⟨h1, h2⟩]
  · intro s e h
    simp only [fetchData]
    rw [if_neg h]
  · intro s j h
    simp only [fetchData]
    rw [if_neg h]

/-- C8 witness: an HTTP 500 response surfaces as the transport error. -/
theorem fetch_error_kinds_witness :
    fetchData (.response 500 (.valid Json.null)) =
      .error ("API request failed: " ++ httpErrorMsg 500) :=
  fetch_error_kinds.2.1 500 (.valid Json.null) (by decide) (by decide)

/-- C9: when the fetch fails - in particular on any non-success HTTP status
such as 500 - `run` returns that transport error and writes no file at
all, so the output path is never created. -/
theorem run_aborts_on_fetch_failure (url gen out : String)
    (lf se : Option String) (o : FetchOutcome) :
    (∀ e, fetchData o = .error e → run url gen lf out se o = (.error e, [])) ∧
    (∀ s b, 400 ≤ s → s < 600 →
      run url gen lf out se (.response s b) =
        (.error ("API request failed: " ++ httpErrorMsg s), [])) := by
  constructor
  · intro e h
    simp [run, h]
  · intro s b h1 h2
    have h : fetchData (.response s b) =
        .error ("API request failed: " ++ httpErrorMsg s) := by
      simp only [fetchData]
      rw [if_pos ⟨h1, h2⟩]
    simp [run, h]

/-- C9 witness: an HTTP 500 run returns the transport error and writes
nothing. -/
theorem run_aborts_on_fetch_failure_witness :
    run "u" "t" none "report.docx" none
        (FetchOutcome.response 500 (Body.valid Json.null)) =
      (.error ("API request failed: " ++ httpErrorMsg 500), []) :=
  (run_aborts_on_fetch_failure "u" "t" "report.docx" none none
      (FetchOutcome.response 500 (Body.valid Json.null))).2 500
    (Body.valid Json.null) (by decide) (by decide)

end DocReport
